import Mathlib

/-!
Verification of the video-streamer-encoder HTTP server (`server.go`).

The development shallowly embeds the request handler
(`handleTranscodeRequest`), the transcode launcher (`transcodeFile`) and
the streaming pump goroutine as pure Lean functions.  Filesystem and
process interactions are represented by an environment oracle (`Env`)
that fixes the outcome of each system call, and by a trace of effects
(`Eff`) that records, in program order, every externally visible action
the handler performs.  The HTTP response writer is modelled by `RW`,
faithful to Go's `net/http` semantics: the first `WriteHeader` call wins
and later ones are no-ops, and a `Write` before `WriteHeader` implicitly
sends status 200.
-/

namespace VideoStreamer

/-- Go `path.IsAbs` / `filepath.IsAbs` on Linux: the path starts with a slash. -/
def isAbs (p : String) : Bool :=
  match p.data with
  | '/' :: _ => true
  | _ => false

/-- Whether the first list is a prefix of the second. -/
def leadsList : List Char → List Char → Bool
  | [], _ => true
  | _ :: _, [] => false
  | a :: as, b :: bs => a = b && leadsList as bs

/-- Whether `sub` occurs contiguously inside `l`. -/
def substringOf (sub l : List Char) : Bool :=
  leadsList sub l ||
    match l with
    | [] => false
    | _ :: rest => substringOf sub rest

/-- Go `strings.Contains s sub`: `sub` occurs as a contiguous substring of `s`. -/
def goContains (s sub : String) : Bool := substringOf sub.data s.data

/-- Split a character list on `/` and `\` (Go `strings.FieldsFunc` with
`isSlashRune`).  Empty runs are kept; that is harmless here because only
runs equal to `..` are ever examined, and `FieldsFunc` drops empty fields. -/
def splitSlashes : List Char → List (List Char)
  | [] => [[]]
  | c :: rest =>
    let ss := splitSlashes rest
    if c = '/' || c = '\\' then [] :: ss
    else
      match ss with
      | s :: tl => (c :: s) :: tl
      | [] => [[c]]

/-- `net/http`'s `containsDotDot(v)` (the guard at the top of
`http.ServeFile`): true when some slash-separated field of `v` equals `..`
(the `strings.Contains(v, "..")` pre-check in the Go source is a pure
short-circuit and does not change the result). -/
def containsDotDot (v : String) : Bool :=
  (splitSlashes v.data).any (fun seg => seg = ['.', '.'])

/-- Split a character list on `/`, keeping empty segments (as Go's path
cleaning does before discarding them). -/
def splitSlash : List Char → List (List Char)
  | [] => [[]]
  | c :: rest =>
    let ss := splitSlash rest
    if c = '/' then [] :: ss
    else
      match ss with
      | s :: tl => (c :: s) :: tl
      | [] => [[c]]

/-- Interleave `/` between segments. -/
def joinSegs : List (List Char) → List Char
  | [] => []
  | [s] => s
  | s :: rest => s ++ '/' :: joinSegs rest

/-- Core of Go `filepath.Clean` (Unix): process the `/`-separated segments with
a stack, dropping empty and `.` segments; `..` pops a non-`..` entry, is
discarded at the root of a rooted path, and accumulates otherwise. -/
def cleanCore (rooted : Bool) : List (List Char) → List (List Char) → List (List Char)
  | stack, [] => stack.reverse
  | stack, seg :: rest =>
    if seg = [] || seg = ['.'] then cleanCore rooted stack rest
    else if seg = ['.', '.'] then
      match stack with
      | top :: stack2 =>
        if top = ['.', '.'] then cleanCore rooted (['.', '.'] :: top :: stack2) rest
        else cleanCore rooted stack2 rest
      | [] => if rooted then cleanCore rooted [] rest else cleanCore rooted [['.', '.']] rest
    else cleanCore rooted (seg :: stack) rest

/-- Go `filepath.Clean` on Linux (`/` separator), on character lists. -/
def cleanPathL (cs : List Char) : List Char :=
  match cs with
  | [] => ['.']
  | c :: _ =>
    let rooted := c = '/'
    let segs := cleanCore rooted [] (splitSlash cs)
    if rooted then '/' :: joinSegs segs
    else if segs = [] then ['.'] else joinSegs segs

/-- Go `filepath.Clean` on Linux. -/
def cleanPath (p : String) : String := String.mk (cleanPathL p.data)

/-- Go `filepath.Join a b` for the two-argument uses in `server.go`:
empty elements are skipped and the result is cleaned. -/
def joinPath (a b : String) : String :=
  match a.data, b.data with
  | [], bs => String.mk (cleanPathL bs)
  | as, [] => String.mk (cleanPathL as)
  | as, bs => String.mk (cleanPathL (as ++ '/' :: bs))

/-- Go `strconv.Itoa` for non-negative values (widths come from `\d+`). -/
def natDigitsAux : Nat → Nat → List Char
  | _, 0 => []
  | 0, _ + 1 => []
  | n + 1, fuel + 1 =>
    natDigitsAux ((n + 1) / 10) fuel ++ [Char.ofNat (48 + (n + 1) % 10)]

/-- Decimal rendering of an integer width as `strconv.Itoa` produces it. -/
def goItoa (w : Int) : String :=
  match w with
  | Int.ofNat 0 => "0"
  | Int.ofNat (n + 1) => String.mk (natDigitsAux (n + 1) (n + 1))
  | Int.negSucc n => "-" ++ String.mk (natDigitsAux (n + 1) (n + 1))

/-- Numeric value of a decimal digit string. -/
def digitsToNat (s : String) : Nat :=
  s.data.foldl (fun a c => a * 10 + (c.toNat - 48)) 0

/-- Go `strconv.Atoi` restricted to the regexp capture `\d+`: a non-empty
digit string; overflow of the 64-bit `int` yields an error (`none`). -/
def goAtoi (s : String) : Option Int :=
  if s.data ≠ [] ∧ s.data.all Char.isDigit then
    let v := digitsToNat s
    if v < 2 ^ 63 then some (Int.ofNat v) else none
  else none

/-- The route regexp `^/(\d+)p/(.+)$` from `server.go` applied to a request
path: a leading slash, a maximal non-empty digit run, the literal `p/`, and a
non-empty remainder.  `.` does not match a newline and the pattern is
anchored, so a remainder containing a newline does not match. -/
def parseRoute (p : String) : Option (String × String) :=
  match p.data with
  | [] => none
  | c :: rest =>
    if c = '/' then
      let ds := rest.takeWhile Char.isDigit
      let tail := rest.dropWhile Char.isDigit
      if ds.isEmpty then none
      else
        match tail with
        | 'p' :: '/' :: fn =>
          if fn ≠ [] ∧ fn.all (fun ch => ch ≠ '\n') then
            some (String.mk ds, String.mk fn)
          else none
        | _ => none
    else none

/-! ## Response writer (`net/http.ResponseWriter` semantics) -/

/-- Model of the HTTP response writer.  `status` is the status actually sent:
Go sends the header on the first `WriteHeader` (or implicitly `200` on the
first `Write`); later `WriteHeader` calls are superfluous no-ops.  `ct` is the
current `Content-Type` header value; `sentCT` is the value captured when the
header block was sent.  `body` is the list of byte chunks written. -/
structure RW where
  status : Option Nat := none
  ct : String := ""
  sentCT : Option String := none
  body : List String := []
  deriving Repr, DecidableEq

/-- `rw.Header().Set("Content-Type", s)`: mutates the header map; has no
effect on the wire once the header block was sent. -/
def setCT (s : String) (rw : RW) : RW := { rw with ct := s }

/-- `rw.WriteHeader(code)`: first call sends the status and headers; later
calls are ignored. -/
def writeHeader (code : Nat) (rw : RW) : RW :=
  if rw.status.isSome then rw
  else { rw with status := some code, sentCT := some rw.ct }

/-- `rw.Write(bytes)`: implicitly sends a 200 header first if none was sent,
then appends the chunk to the body. -/
def rwWrite (s : String) (rw : RW) : RW :=
  let rw2 := writeHeader 200 rw
  { rw2 with body := rw2.body ++ [s] }

/-- `httpError` from `server.go`: set the plain-text content type, write the
status code, write the message. -/
def httpError (rw : RW) (statusCode : Nat) (msg : String) : RW :=
  rwWrite msg (writeHeader statusCode (setCT "text/plain; charset=utf-8" rw))

/-- `http.ServeFile(rw, req, name)` for a file whose contents are
`contents`: Go first rejects any request whose URL path contains a `..`
path segment (`containsDotDot(r.URL.Path)`) with 400 `invalid URL path`
via `http.Error`, which sets the plain-text content type and appends a
newline to the message; otherwise it serves the file bytes with 200
(range/conditional refinements are not needed by the claims). -/
def serveFileRW (reqPath : String) (contents : String) (rw : RW) : RW :=
  if containsDotDot reqPath then
    rwWrite "invalid URL path\n" (writeHeader 400 (setCT "text/plain; charset=utf-8" rw))
  else
    rwWrite contents (writeHeader 200 rw)

/-! ## Effect traces and the environment oracle -/

/-- Externally visible actions of the handler, in program order. -/
inductive Eff where
  | openFile (p : String)
  | closeFile (p : String)
  | mkdirAll (p : String)
  | statFile (p : String)
  | serveFile (p : String)
  | encoderStart (input : String) (width : Int) (output : String)
  | spawnFail (input : String) (width : Int) (output : String)
  | renameFile (src dst : String)
  | removeFile (p : String)
  | writeChunk (n : Nat)
  | flush
  | closeReader
  | kill
  | waitProc
  deriving Repr, DecidableEq

/-- Outcome of `os.Open` on the source file. -/
inductive OpenResult where
  | ok
  | notExist
  | otherErr
  deriving Repr, DecidableEq

/-- Outcome of `os.Stat` on the canonical cache path. -/
inductive StatResult where
  | present
  | absent
  | statErr
  deriving Repr, DecidableEq

/-- Error part of one `Read` call on the encoder's stdout pipe. -/
inductive ReadErr where
  | ok
  | eof
  | other
  deriving Repr, DecidableEq

/-- One `Read` on the live stream: the bytes delivered into the 16 KiB
buffer, the accompanying error, and whether the `rw.Write` of those bytes
fails (client gone). -/
structure ReadResult where
  data : String
  err : ReadErr
  wErr : Bool
  deriving Repr, DecidableEq

/-- Oracle fixing the outcome of every system interaction of one request:
whether the source open, directory creation, cache stat, flusher upgrade and
encoder spawn succeed, the contents published at the canonical path, the
sequence of reads the encoder's pipe yields, and the iteration index from
which the request's cancellation signal (`ctx.Done()`) is observed set. -/
structure Env where
  sourceOpen : OpenResult
  mkdirOk : Bool
  canonicalStat : StatResult
  canonicalContents : String
  flusherOk : Bool
  spawnOk : Bool
  reads : List ReadResult
  cancelAt : Option Nat
  deriving Repr, DecidableEq

/-- Whether the cancellation signal is set at check number `i`. -/
def cancelled (cancelAt : Option Nat) (i : Nat) : Bool :=
  match cancelAt with
  | some k => decide (k ≤ i)
  | none => false

/-- Result classification of the pump goroutine (lines 185–211 of
`server.go`).  `starved` is a model artifact for an exhausted oracle. -/
inductive Outcome where
  | completed
  | cancelled
  | errored
  | starved
  deriving Repr, DecidableEq

/-- The pump goroutine of `handleTranscodeRequest`: each iteration first
checks `ctx.Done()`; otherwise it reads into the 16 KiB buffer, writes any
bytes read to the response (stopping on a write error), flushes, and then
stops on `io.EOF` (completion) or removes the output file and stops on any
other read error.  Returns the effect trace, the chunks successfully written
to the client, and the outcome. -/
def pump (tfp : String) (cancelAt : Option Nat) : List ReadResult → Nat →
    List Eff × List String × Outcome
  | rs0, i =>
    if cancelled cancelAt i then ([], [], Outcome.cancelled)
    else match rs0 with
    | [] => ([], [], Outcome.starved)
    | r :: rs =>
    if r.data.length > 0 then
      if r.wErr then ([Eff.writeChunk r.data.length], [], Outcome.errored)
      else
        match r.err with
        | ReadErr.ok =>
          (Eff.writeChunk r.data.length :: Eff.flush :: (pump tfp cancelAt rs (i + 1)).1,
           r.data :: (pump tfp cancelAt rs (i + 1)).2.1,
           (pump tfp cancelAt rs (i + 1)).2.2)
        | ReadErr.eof =>
          ([Eff.writeChunk r.data.length, Eff.flush], [r.data], Outcome.completed)
        | ReadErr.other =>
          ([Eff.writeChunk r.data.length, Eff.flush, Eff.removeFile tfp], [r.data],
           Outcome.errored)
    else
      match r.err with
      | ReadErr.ok => pump tfp cancelAt rs (i + 1)
      | ReadErr.eof => ([], [], Outcome.completed)
      | ReadErr.other => ([Eff.removeFile tfp], [], Outcome.errored)

/-! ## The request handler -/

/-- The server configuration (`JSONConfig` in `server.go`). -/
structure JSONConfig where
  Host : String
  Port : Int
  InputDir : String
  OutputDir : String
  Widths : List Int
  deriving Repr, DecidableEq

/-- Shallow embedding of `handleTranscodeRequest` (`server.go`, lines
80–219), sequentialized: route match, width parse and membership check,
filename cleaning and traversal check, source open (404 on absence), output
directory creation, canonical-path stat (serve on hit), flusher upgrade,
header block + `WriteHeader(200)`, encoder spawn via `transcodeFile`, pump
loop, and the deferred `reader.Close` / `Process.Kill` / `cmd.Wait` /
`origFile.Close` in LIFO order on return.  Returns the response writer state
and the effect trace. -/
def handleTranscodeRequest (config : JSONConfig) (reqPath : String) (env : Env) :
    RW × List Eff :=
  let rw : RW := {}
  match parseRoute reqPath with
  | none => (httpError rw 404 "Not Found", [])
  | some (widthStr, rawFilename) =>
    match goAtoi widthStr with
    | none => (httpError rw 400 "Invalid Width", [])
    | some width =>
      if config.Widths.contains width then
        let filename := cleanPath rawFilename
        if goContains filename "../" || isAbs filename then
          (httpError rw 400 "Invalid file path", [])
        else
          let origFilePath := joinPath config.InputDir filename
          match env.sourceOpen with
          | OpenResult.notExist =>
            (httpError rw 404 "File Not Found", [Eff.openFile origFilePath])
          | OpenResult.otherErr =>
            (httpError rw 500 "Internal Server Error", [Eff.openFile origFilePath])
          | OpenResult.ok =>
            let outputDir := joinPath config.OutputDir (goItoa width)
            if env.mkdirOk then
              let transcodedFilePath := joinPath outputDir filename
              match env.canonicalStat with
              | StatResult.present =>
                (serveFileRW reqPath env.canonicalContents rw,
                 [Eff.openFile origFilePath, Eff.mkdirAll outputDir,
                  Eff.statFile transcodedFilePath, Eff.serveFile transcodedFilePath,
                  Eff.closeFile origFilePath])
              | StatResult.statErr =>
                (httpError rw 500 "Internal Server Error",
                 [Eff.openFile origFilePath, Eff.mkdirAll outputDir,
                  Eff.statFile transcodedFilePath, Eff.closeFile origFilePath])
              | StatResult.absent =>
                if env.flusherOk then
                  let rw2 := writeHeader 200 (setCT "video/mp4" rw)
                  if env.spawnOk then
                    let pr := pump transcodedFilePath env.cancelAt env.reads 0
                    let rw3 := pr.2.1.foldl (fun r s => rwWrite s r) rw2
                    (rw3,
                     Eff.openFile origFilePath :: Eff.mkdirAll outputDir ::
                       Eff.statFile transcodedFilePath ::
                       Eff.encoderStart origFilePath width transcodedFilePath ::
                       (pr.1 ++ [Eff.closeReader, Eff.kill, Eff.waitProc,
                                 Eff.closeFile origFilePath]))
                  else
                    (httpError rw2 500 "Failed to start transcoding",
                     [Eff.openFile origFilePath, Eff.mkdirAll outputDir,
                      Eff.statFile transcodedFilePath,
                      Eff.spawnFail origFilePath width transcodedFilePath,
                      Eff.closeFile origFilePath])
                else
                  (httpError rw 500 "Streaming not supported",
                   [Eff.openFile origFilePath, Eff.mkdirAll outputDir,
                    Eff.statFile transcodedFilePath, Eff.closeFile origFilePath])
            else
              (httpError rw 500 "Could not create output directory",
               [Eff.openFile origFilePath, Eff.mkdirAll outputDir,
                Eff.closeFile origFilePath])
      else
        (httpError rw 400 "Invalid Width", [])

/-- The response of a request. -/
def respOf (config : JSONConfig) (reqPath : String) (env : Env) : RW :=
  (handleTranscodeRequest config reqPath env).1

/-- The effect trace of a request. -/
def traceOf (config : JSONConfig) (reqPath : String) (env : Env) : List Eff :=
  (handleTranscodeRequest config reqPath env).2

/-! ## Trace predicates -/

/-- Whether an effect is a rename. -/
def isRenameEff : Eff → Bool
  | Eff.renameFile _ _ => true
  | _ => false

/-- Whether an effect serves a file statically. -/
def isServeEff : Eff → Bool
  | Eff.serveFile _ => true
  | _ => false

/-- Whether an effect starts the encoder. -/
def isEncoderStartEff : Eff → Bool
  | Eff.encoderStart _ _ _ => true
  | _ => false

/-- Every write of a chunk is immediately followed by a flush, except a
trailing failed write that terminates the loop. -/
def writesFlushed : List Eff → Bool
  | [] => true
  | Eff.writeChunk _ :: Eff.flush :: rest => writesFlushed rest
  | [Eff.writeChunk _] => true
  | Eff.writeChunk _ :: _ :: _ => false
  | _ :: rest => writesFlushed rest

/-- After the first kill in the trace, a wait (reap) follows. -/
def killThenWait : List Eff → Bool
  | [] => false
  | Eff.kill :: rest => rest.contains Eff.waitProc
  | _ :: rest => killThenWait rest

/-- No stat of any path occurs before the first directory creation. -/
def mkdirBeforeStat : List Eff → Bool
  | [] => true
  | Eff.statFile _ :: _ => false
  | Eff.mkdirAll _ :: _ => true
  | _ :: rest => mkdirBeforeStat rest

/-! ## Concrete fixtures -/

/-- A concrete configuration: widths 480 and 720 are permitted. -/
def cfgEx : JSONConfig := ⟨"localhost", 8000, "/data/in", "/data/out", [480, 720]⟩

/-- Environment of a pure cache hit: the source file and the published
artifact both exist. -/
def envHit : Env :=
  ⟨OpenResult.ok, true, StatResult.present, "ARTIFACT", true, true, [], none⟩

/-- Environment of a clean cache-miss generation: one 4-byte chunk then EOF. -/
def envGen : Env :=
  ⟨OpenResult.ok, true, StatResult.absent, "", true, true,
   [⟨"abcd", ReadErr.eof, false⟩], none⟩

/-- Environment of a generation cancelled mid-transfer: the first chunk is
delivered, then the cancellation signal is observed at the pump's second
check (`cancelAt = some 1`). -/
def envCancel : Env :=
  ⟨OpenResult.ok, true, StatResult.absent, "", true, true,
   [⟨"abcd", ReadErr.ok, false⟩, ⟨"efgh", ReadErr.ok, false⟩], some 1⟩

/-- Environment where the encoder fails to spawn on a cache miss. -/
def envSpawnFail : Env :=
  ⟨OpenResult.ok, true, StatResult.absent, "", true, false, [], none⟩

/-- Environment where the source file is gone but the published artifact is
still present at the canonical path. -/
def envNoSource : Env :=
  ⟨OpenResult.notExist, true, StatResult.present, "ARTIFACT", true, true, [], none⟩

/-- Environment where creating the output directory fails even though a
published artifact exists at the canonical path. -/
def envMkdirFail : Env :=
  ⟨OpenResult.ok, false, StatResult.present, "ARTIFACT", true, true, [], none⟩

/-- A concrete read sequence: one 2-byte chunk delivered together with EOF. -/
def rlEx : List ReadResult := [⟨"ab", ReadErr.eof, false⟩]

/-! ## Claims -/

/-- C1.  The claim states that generation writes only to a temporary name and
that the artifact becomes visible at the canonical path solely via an atomic
rename.  On a concrete cache-miss request the handler starts the encoder with
the canonical cache path `OutputDir/480/movie.mp4` itself as the output file,
the same path the cache lookup stats, and the trace contains no rename at
all: the artifact is written in place, so a lookup racing with generation can
observe a partially written file. -/
theorem C1_encoder_writes_canonical_directly_no_rename :
    Eff.statFile "/data/out/480/movie.mp4" ∈ traceOf cfgEx "/480p/movie.mp4" envGen ∧
    Eff.encoderStart "/data/in/movie.mp4" 480 "/data/out/480/movie.mp4" ∈
      traceOf cfgEx "/480p/movie.mp4" envGen ∧
    (traceOf cfgEx "/480p/movie.mp4" envGen).all (fun e => !(isRenameEff e)) = true := by
  decide

/-- C2.  The claim states that after a cancellation mid-transfer the canonical
cache path does not exist.  In the run where the pump observes the
cancellation signal at its pre-read check, the encoder (which writes directly
to the canonical path) is killed and reaped, but no removal of the canonical
path ever happens: the partial artifact is left in place. -/
theorem C2_cancellation_leaves_partial_artifact :
    Eff.encoderStart "/data/in/movie.mp4" 480 "/data/out/480/movie.mp4" ∈
      traceOf cfgEx "/480p/movie.mp4" envCancel ∧
    Eff.kill ∈ traceOf cfgEx "/480p/movie.mp4" envCancel ∧
    Eff.waitProc ∈ traceOf cfgEx "/480p/movie.mp4" envCancel ∧
    Eff.removeFile "/data/out/480/movie.mp4" ∉ traceOf cfgEx "/480p/movie.mp4" envCancel := by
  decide

/-- C3.  The claim states that any matched request whose normalized filename
contains a parent-traversal segment is answered 400 and never opens a file
outside the input root.  The filename `..` is its own normal form, is not
absolute, and does not contain the substring `../`, so the sanitization of
`server.go` (a `strings.Contains(filename, "../")` check) accepts it: on
`/480p/..` the handler opens `Join("/data/in", "..") = "/data"` — the parent
of the input root — and creates the output directory.  The 400 the client
eventually receives is not produced by the filename validation (whose reject
branch has an empty trace) but by `http.ServeFile`'s `containsDotDot` guard
on the serve branch, after those side effects, with body
`invalid URL path`. -/
theorem C3_dotdot_filename_bypasses_validation :
    cleanPath ".." = ".." ∧
    goContains ".." "../" = false ∧
    isAbs ".." = false ∧
    Eff.openFile "/data" ∈ traceOf cfgEx "/480p/.." envHit ∧
    Eff.mkdirAll "/data/out/480" ∈ traceOf cfgEx "/480p/.." envHit ∧
    Eff.serveFile "/data/out" ∈ traceOf cfgEx "/480p/.." envHit ∧
    (respOf cfgEx "/480p/.." envHit).status = some 400 ∧
    (respOf cfgEx "/480p/.." envHit).body = ["invalid URL path\n"] := by
  decide

/-- C4.  The claim states that a subprocess-spawn or pipe-setup failure is
answered with a 500 with no streamed bytes before it.  But `server.go` calls
`rw.WriteHeader(http.StatusOK)` before `transcodeFile`, so when the spawn
fails, the subsequent `httpError(..., 500, ...)` is a superfluous no-op: the
client observes status 200 with content type `video/mp4` and the error text
as body.  (The directory-creation failure, checked earlier, does produce a
real 500.) -/
theorem C4_spawn_failure_reports_status_200 :
    (respOf cfgEx "/480p/movie.mp4" envSpawnFail).status = some 200 ∧
    (respOf cfgEx "/480p/movie.mp4" envSpawnFail).sentCT = some "video/mp4" ∧
    (respOf cfgEx "/480p/movie.mp4" envSpawnFail).body = ["Failed to start transcoding"] ∧
    Eff.spawnFail "/data/in/movie.mp4" 480 "/data/out/480/movie.mp4" ∈
      traceOf cfgEx "/480p/movie.mp4" envSpawnFail ∧
    (respOf cfgEx "/480p/movie.mp4" envMkdirFail).status = some 500 := by
  decide

/-! ## Helper lemmas -/

/-- The pump never kills the encoder itself: termination is the handler's
deferred cleanup. -/
theorem pump_no_kill (tfp : String) (ca : Option Nat) (reads : List ReadResult) (i : Nat) :
    Eff.kill ∉ (pump tfp ca reads i).1 := by
  induction reads generalizing i with
  | nil => simp only [pump]; split <;> simp
  | cons r rs ih =>
    simp only [pump]
    split
    · simp
    · split
      · split
        · simp
        · cases hr : r.err <;> simp [ih]
      · cases hr : r.err <;> simp [ih]

/-- `killThenWait` skips a leading non-kill effect. -/
theorem killThenWait_cons (e : Eff) (rest : List Eff) (h : e ≠ Eff.kill) :
    killThenWait (e :: rest) = killThenWait rest := by
  cases e <;> first | rfl | exact absurd rfl h

/-- `killThenWait` skips a kill-free prefix. -/
theorem killThenWait_append (xs ys : List Eff) (h : Eff.kill ∉ xs) :
    killThenWait (xs ++ ys) = killThenWait ys := by
  induction xs with
  | nil => rfl
  | cons x xs ih =>
    rw [List.cons_append, killThenWait_cons _ _ (by rintro rfl; exact h (by simp)),
      ih (fun hm => h (by simp [hm]))]

/-- Every chunk the pump writes is non-empty and fits the 16 KiB buffer. -/
theorem pump_chunk_bounds (tfp : String) (ca : Option Nat) (reads : List ReadResult) (i : Nat)
    (hsz : ∀ r ∈ reads, r.data.length ≤ 16 * 1024) :
    ∀ n, Eff.writeChunk n ∈ (pump tfp ca reads i).1 → 0 < n ∧ n ≤ 16 * 1024 := by
  induction reads generalizing i with
  | nil =>
    intro n hn
    simp only [pump] at hn
    split at hn <;> simp at hn
  | cons r rs ih =>
    intro n hn
    by_cases hc : cancelled ca i
    · simp [pump, hc] at hn
    · by_cases hlen : r.data.length > 0
      · by_cases hwe : r.wErr
        · simp [pump, hc, hlen, hwe] at hn
          exact hn ▸ ⟨hlen, hsz r (by simp)⟩
        · cases hr : r.err
          · simp [pump, hc, hlen, hwe, hr] at hn
            rcases hn with hn | hn
            · exact hn ▸ ⟨hlen, hsz r (by simp)⟩
            · exact ih (i + 1) (fun r2 h2 => hsz r2 (by simp [h2])) n hn
          · simp [pump, hc, hlen, hwe, hr] at hn
            exact hn ▸ ⟨hlen, hsz r (by simp)⟩
          · simp [pump, hc, hlen, hwe, hr] at hn
            exact hn ▸ ⟨hlen, hsz r (by simp)⟩
      · cases hr : r.err
        · simp [pump, hc, hlen, hr] at hn
          exact ih (i + 1) (fun r2 h2 => hsz r2 (by simp [h2])) n hn
        · simp [pump, hc, hlen, hr] at hn
        · simp [pump, hc, hlen, hr] at hn

/-- Every successful chunk write by the pump is immediately followed by a
flush (a trailing failed write terminates the loop unflushed). -/
theorem pump_writesFlushed (tfp : String) (ca : Option Nat) (reads : List ReadResult)
    (i : Nat) : writesFlushed (pump tfp ca reads i).1 = true := by
  induction reads generalizing i with
  | nil =>
    simp only [pump]
    split <;> rfl
  | cons r rs ih =>
    by_cases hc : cancelled ca i
    · simp [pump, hc, writesFlushed]
    · by_cases hlen : r.data.length > 0
      · by_cases hwe : r.wErr
        · simp [pump, hc, hlen, hwe, writesFlushed]
        · cases hr : r.err <;> simp [pump, hc, hlen, hwe, hr, writesFlushed, ih]
      · cases hr : r.err <;> simp [pump, hc, hlen, hr, writesFlushed, ih]

/-! ## Claims C5–C10 -/

/-- C5, counterexample.  The claim says a Ready entry is served statically
regardless of whether the source file still exists.  In an environment where
the published artifact is present at the canonical path but the source file
is gone, the handler answers 404 and serves nothing. -/
theorem C5_counterexample_cache_hit_requires_source :
    envNoSource.canonicalStat = StatResult.present ∧
    (respOf cfgEx "/480p/movie.mp4" envNoSource).status = some 404 ∧
    (traceOf cfgEx "/480p/movie.mp4" envNoSource).all (fun e => !(isServeEff e)) = true := by
  decide

/-- C5, amended.  For every validated request the handler opens the source
input file first, answering 404 when it is absent (regardless of the cache
state, whose lookup never happens on that path); only after the source open
and the directory creation succeed is the canonical path examined and a Ready
entry served statically.  So a cache hit is served only while the source file
still exists. -/
theorem C5_source_open_precedes_cache_lookup (c : JSONConfig) (p : String) (env : Env)
    (ws fn : String) (w : Int)
    (hp : parseRoute p = some (ws, fn)) (ha : goAtoi ws = some w)
    (hw : c.Widths.contains w = true)
    (h1 : goContains (cleanPath fn) "../" = false) (h2 : isAbs (cleanPath fn) = false) :
    (env.sourceOpen = OpenResult.notExist →
      (respOf c p env).status = some 404 ∧
      traceOf c p env = [Eff.openFile (joinPath c.InputDir (cleanPath fn))]) ∧
    (env.sourceOpen = OpenResult.ok → env.mkdirOk = true →
      env.canonicalStat = StatResult.present →
      traceOf c p env =
        [Eff.openFile (joinPath c.InputDir (cleanPath fn)),
         Eff.mkdirAll (joinPath c.OutputDir (goItoa w)),
         Eff.statFile (joinPath (joinPath c.OutputDir (goItoa w)) (cleanPath fn)),
         Eff.serveFile (joinPath (joinPath c.OutputDir (goItoa w)) (cleanPath fn)),
         Eff.closeFile (joinPath c.InputDir (cleanPath fn))]) := by
  have hw2 : w ∈ c.Widths := by simpa using hw
  constructor
  · intro hopen
    simp [respOf, traceOf, handleTranscodeRequest, hp, ha, hw2, h1, h2, hopen,
      httpError, rwWrite, writeHeader, setCT]
  · intro hopen hmk hstat
    simp [traceOf, handleTranscodeRequest, hp, ha, hw2, h1, h2, hopen, hmk, hstat]

/-- Witness for C5 (amended): the concrete request `/480p/movie.mp4` under
the cache-hit environment. -/
theorem C5_source_open_precedes_cache_lookup_witness :
    parseRoute "/480p/movie.mp4" = some ("480", "movie.mp4") ∧
    goAtoi "480" = some 480 ∧
    cfgEx.Widths.contains 480 = true ∧
    goContains (cleanPath "movie.mp4") "../" = false ∧
    isAbs (cleanPath "movie.mp4") = false ∧
    ((envHit.sourceOpen = OpenResult.notExist →
      (respOf cfgEx "/480p/movie.mp4" envHit).status = some 404 ∧
      traceOf cfgEx "/480p/movie.mp4" envHit =
        [Eff.openFile (joinPath cfgEx.InputDir (cleanPath "movie.mp4"))]) ∧
     (envHit.sourceOpen = OpenResult.ok → envHit.mkdirOk = true →
      envHit.canonicalStat = StatResult.present →
      traceOf cfgEx "/480p/movie.mp4" envHit =
        [Eff.openFile (joinPath cfgEx.InputDir (cleanPath "movie.mp4")),
         Eff.mkdirAll (joinPath cfgEx.OutputDir (goItoa 480)),
         Eff.statFile (joinPath (joinPath cfgEx.OutputDir (goItoa 480)) (cleanPath "movie.mp4")),
         Eff.serveFile (joinPath (joinPath cfgEx.OutputDir (goItoa 480)) (cleanPath "movie.mp4")),
         Eff.closeFile (joinPath cfgEx.InputDir (cleanPath "movie.mp4"))])) :=
  ⟨by decide, by decide, by decide, by decide, by decide,
   C5_source_open_precedes_cache_lookup cfgEx "/480p/movie.mp4" envHit "480" "movie.mp4" 480
     (by decide) (by decide) (by decide) (by decide) (by decide)⟩

/-- C6.  For every request whose path matches the route pattern but whose
width digit-string does not parse to an element of the configured `Widths`
set (including 64-bit overflow of `Atoi`), the handler answers 400 with an
empty effect trace: no filesystem or process action at all, independent of
the filename. -/
theorem C6_width_not_configured_returns_400_no_effects (c : JSONConfig) (p : String)
    (env : Env) (ws fn : String)
    (hp : parseRoute p = some (ws, fn))
    (hw : (goAtoi ws).all (fun w => !(c.Widths.contains w)) = true) :
    (respOf c p env).status = some 400 ∧ traceOf c p env = [] := by
  cases h : goAtoi ws with
  | none =>
    simp [respOf, traceOf, handleTranscodeRequest, hp, h, httpError, rwWrite, writeHeader,
      setCT]
  | some w =>
    rw [h] at hw
    have hw2 : w ∉ c.Widths := by simpa using hw
    simp [respOf, traceOf, handleTranscodeRequest, hp, h, hw2, httpError, rwWrite,
      writeHeader, setCT]

/-- Witness for C6: width 360 is not in the configured `[480, 720]`. -/
theorem C6_width_not_configured_returns_400_no_effects_witness :
    parseRoute "/360p/movie.mp4" = some ("360", "movie.mp4") ∧
    (goAtoi "360").all (fun w => !(cfgEx.Widths.contains w)) = true ∧
    ((respOf cfgEx "/360p/movie.mp4" envHit).status = some 400 ∧
     traceOf cfgEx "/360p/movie.mp4" envHit = []) :=
  ⟨by decide, by decide,
   C6_width_not_configured_returns_400_no_effects cfgEx "/360p/movie.mp4" envHit
     "360" "movie.mp4" (by decide) (by decide)⟩

/-- C7, counterexample.  The claim says every second identical request after
a first successful generation is served byte-identically from the published
artifact.  The raw filename `a/b/..` cleans to the safe filename `a` (no
`../` substring, not absolute), so the first request `/480p/a/b/..`
validates and, on a cache miss, generates successfully at the canonical path
`/data/out/480/a` (encoder started, pump completed).  A second identical
request finds the artifact, but `http.ServeFile` rejects the request URL
path — which still contains a `..` segment — with 400 `invalid URL path`:
the body is not the artifact's bytes. -/
theorem C7_counterexample_dotdot_path_rejected_despite_artifact :
    parseRoute "/480p/a/b/.." = some ("480", "a/b/..") ∧
    cleanPath "a/b/.." = "a" ∧
    goContains (cleanPath "a/b/..") "../" = false ∧
    isAbs (cleanPath "a/b/..") = false ∧
    Eff.encoderStart "/data/in/a" 480 "/data/out/480/a" ∈
      traceOf cfgEx "/480p/a/b/.." envGen ∧
    (pump "/data/out/480/a" envGen.cancelAt envGen.reads 0).2.2 = Outcome.completed ∧
    (respOf cfgEx "/480p/a/b/.." envHit).status = some 400 ∧
    (respOf cfgEx "/480p/a/b/.." envHit).body = ["invalid URL path\n"] := by
  decide

/-- C7, amended.  When a published artifact exists at the canonical path,
the source file still exists (checked first by the code), and the request
URL path contains no `..` segment — so that `http.ServeFile`'s traversal
guard does not fire — the request is answered 200 with exactly the
artifact's bytes as body, served via the static-file path, and the effect
trace contains no encoder start: the content is a function of the published
artifact alone, so repeated identical requests return byte-identical bodies
without invoking the encoder again. -/
theorem C7_cache_hit_serves_artifact_without_encoder (c : JSONConfig) (p : String)
    (env : Env) (ws fn : String) (w : Int)
    (hp : parseRoute p = some (ws, fn)) (ha : goAtoi ws = some w)
    (hw : c.Widths.contains w = true)
    (h1 : goContains (cleanPath fn) "../" = false) (h2 : isAbs (cleanPath fn) = false)
    (hdd : containsDotDot p = false)
    (hopen : env.sourceOpen = OpenResult.ok) (hmk : env.mkdirOk = true)
    (hstat : env.canonicalStat = StatResult.present) :
    (respOf c p env).status = some 200 ∧
    (respOf c p env).body = [env.canonicalContents] ∧
    Eff.serveFile (joinPath (joinPath c.OutputDir (goItoa w)) (cleanPath fn)) ∈
      traceOf c p env ∧
    (traceOf c p env).all (fun e => !(isEncoderStartEff e)) = true := by
  have hw2 : w ∈ c.Widths := by simpa using hw
  simp [respOf, traceOf, handleTranscodeRequest, hp, ha, hw2, h1, h2, hdd, hopen, hmk,
    hstat, serveFileRW, rwWrite, writeHeader, setCT, isEncoderStartEff]

/-- Witness for C7 (amended): the concrete second request after a successful
generation published `ARTIFACT` at the canonical path. -/
theorem C7_cache_hit_serves_artifact_without_encoder_witness :
    parseRoute "/480p/movie.mp4" = some ("480", "movie.mp4") ∧
    goAtoi "480" = some 480 ∧
    cfgEx.Widths.contains 480 = true ∧
    goContains (cleanPath "movie.mp4") "../" = false ∧
    isAbs (cleanPath "movie.mp4") = false ∧
    containsDotDot "/480p/movie.mp4" = false ∧
    envHit.sourceOpen = OpenResult.ok ∧
    envHit.mkdirOk = true ∧
    envHit.canonicalStat = StatResult.present ∧
    ((respOf cfgEx "/480p/movie.mp4" envHit).status = some 200 ∧
     (respOf cfgEx "/480p/movie.mp4" envHit).body = [envHit.canonicalContents] ∧
     Eff.serveFile (joinPath (joinPath cfgEx.OutputDir (goItoa 480)) (cleanPath "movie.mp4")) ∈
       traceOf cfgEx "/480p/movie.mp4" envHit ∧
     (traceOf cfgEx "/480p/movie.mp4" envHit).all (fun e => !(isEncoderStartEff e)) = true) :=
  ⟨by decide, by decide, by decide, by decide, by decide, by decide, by decide, by decide,
   by decide,
   C7_cache_hit_serves_artifact_without_encoder cfgEx "/480p/movie.mp4" envHit
     "480" "movie.mp4" 480 (by decide) (by decide) (by decide) (by decide) (by decide)
     (by decide) (by decide) (by decide) (by decide)⟩

/-- C8.  The pump reads into a fixed 16 KiB buffer, so every written chunk
is non-empty and at most 16 KiB; every successful write is immediately
followed by a flush; the cancellation signal is checked before each read and,
once set, the pump emits nothing further and reports `cancelled`; clean EOF
ends the loop as `completed`; a write error or a non-EOF read error ends the
loop as `errored` with no retry — the remaining read sequence is never
consumed (the result does not depend on it). -/
theorem C8_pump_chunks_flush_cancel_eof (tfp : String) (ca : Option Nat)
    (reads : List ReadResult) (i : Nat)
    (hsz : ∀ r ∈ reads, r.data.length ≤ 16 * 1024) :
    (∀ n, Eff.writeChunk n ∈ (pump tfp ca reads i).1 → 0 < n ∧ n ≤ 16 * 1024) ∧
    writesFlushed (pump tfp ca reads i).1 = true ∧
    (cancelled ca i = true → pump tfp ca reads i = ([], [], Outcome.cancelled)) ∧
    (∀ r rs, reads = r :: rs → cancelled ca i = false →
      ((r.wErr = true ∧ 0 < r.data.length →
          (pump tfp ca reads i).2.2 = Outcome.errored ∧
          ∀ rs2, pump tfp ca (r :: rs2) i = pump tfp ca reads i) ∧
       (r.wErr = false ∨ r.data.length = 0 →
          (r.err = ReadErr.eof →
            (pump tfp ca reads i).2.2 = Outcome.completed ∧
            ∀ rs2, pump tfp ca (r :: rs2) i = pump tfp ca reads i) ∧
          (r.err = ReadErr.other →
            (pump tfp ca reads i).2.2 = Outcome.errored ∧
            Eff.removeFile tfp ∈ (pump tfp ca reads i).1 ∧
            ∀ rs2, pump tfp ca (r :: rs2) i = pump tfp ca reads i)))) := by
  refine ⟨pump_chunk_bounds tfp ca reads i hsz, pump_writesFlushed tfp ca reads i, ?_, ?_⟩
  · intro hcan
    cases reads <;> simp [pump, hcan]
  · rintro r rs rfl hcan
    constructor
    · rintro ⟨hwe, hlen⟩
      constructor
      · simp [pump, hcan, hlen, hwe]
      · intro rs2
        simp [pump, hcan, hlen, hwe]
    · intro hok
      constructor
      · intro hr
        rcases hok with hwe | hlen0
        · by_cases hlen : r.data.length > 0
          · constructor
            · simp [pump, hcan, hlen, hwe, hr]
            · intro rs2; simp [pump, hcan, hlen, hwe, hr]
          · constructor
            · simp [pump, hcan, hlen, hr]
            · intro rs2; simp [pump, hcan, hlen, hr]
        · have hlen : ¬ r.data.length > 0 := by simp [hlen0]
          constructor
          · simp [pump, hcan, hlen, hr]
          · intro rs2; simp [pump, hcan, hlen, hr]
      · intro hr
        rcases hok with hwe | hlen0
        · by_cases hlen : r.data.length > 0
          · refine ⟨?_, ?_, ?_⟩
            · simp [pump, hcan, hlen, hwe, hr]
            · simp [pump, hcan, hlen, hwe, hr]
            · intro rs2; simp [pump, hcan, hlen, hwe, hr]
          · refine ⟨?_, ?_, ?_⟩
            · simp [pump, hcan, hlen, hr]
            · simp [pump, hcan, hlen, hr]
            · intro rs2; simp [pump, hcan, hlen, hr]
        · have hlen : ¬ r.data.length > 0 := by simp [hlen0]
          refine ⟨?_, ?_, ?_⟩
          · simp [pump, hcan, hlen, hr]
          · simp [pump, hcan, hlen, hr]
          · intro rs2; simp [pump, hcan, hlen, hr]

/-- Witness for C8: a single 2-byte read delivered together with EOF. -/
theorem C8_pump_chunks_flush_cancel_eof_witness :
    (∀ r ∈ rlEx, r.data.length ≤ 16 * 1024) ∧
    ((∀ n, Eff.writeChunk n ∈ (pump "/data/out/480/movie.mp4" none rlEx 0).1 →
        0 < n ∧ n ≤ 16 * 1024) ∧
     writesFlushed (pump "/data/out/480/movie.mp4" none rlEx 0).1 = true ∧
     (cancelled none 0 = true →
        pump "/data/out/480/movie.mp4" none rlEx 0 = ([], [], Outcome.cancelled)) ∧
     (∀ r rs, rlEx = r :: rs → cancelled none 0 = false →
       ((r.wErr = true ∧ 0 < r.data.length →
           (pump "/data/out/480/movie.mp4" none rlEx 0).2.2 = Outcome.errored ∧
           ∀ rs2, pump "/data/out/480/movie.mp4" none (r :: rs2) 0 =
             pump "/data/out/480/movie.mp4" none rlEx 0) ∧
        (r.wErr = false ∨ r.data.length = 0 →
           (r.err = ReadErr.eof →
             (pump "/data/out/480/movie.mp4" none rlEx 0).2.2 = Outcome.completed ∧
             ∀ rs2, pump "/data/out/480/movie.mp4" none (r :: rs2) 0 =
               pump "/data/out/480/movie.mp4" none rlEx 0) ∧
           (r.err = ReadErr.other →
             (pump "/data/out/480/movie.mp4" none rlEx 0).2.2 = Outcome.errored ∧
             Eff.removeFile "/data/out/480/movie.mp4" ∈
               (pump "/data/out/480/movie.mp4" none rlEx 0).1 ∧
             ∀ rs2, pump "/data/out/480/movie.mp4" none (r :: rs2) 0 =
               pump "/data/out/480/movie.mp4" none rlEx 0))))) :=
  ⟨by decide,
   C8_pump_chunks_flush_cancel_eof "/data/out/480/movie.mp4" none rlEx 0 (by decide)⟩

/-- C9.  Whenever the handler's trace contains an encoder start — i.e. on the
generation branch, across all of its exits: clean completion, mid-stream
write or read error, and cancellation — the trace also contains, after that
point, a forcible kill of the encoder process followed by a wait that reaps
it (the deferred cleanup registered right after the successful spawn). -/
theorem C9_encoder_killed_and_reaped_on_every_exit (c : JSONConfig) (p : String) (env : Env)
    (h : (traceOf c p env).any isEncoderStartEff = true) :
    killThenWait (traceOf c p env) = true := by
  unfold traceOf handleTranscodeRequest at h ⊢
  repeat' split
  all_goals simp_all [isEncoderStartEff]
  all_goals repeat' split
  all_goals simp_all [isEncoderStartEff]
  all_goals
    rw [killThenWait_cons _ _ (by simp), killThenWait_cons _ _ (by simp),
      killThenWait_cons _ _ (by simp), killThenWait_cons _ _ (by simp),
      killThenWait_append _ _ (pump_no_kill _ _ _ _)]
  all_goals rfl

/-- Witness for C9: the clean cache-miss generation run. -/
theorem C9_encoder_killed_and_reaped_on_every_exit_witness :
    (traceOf cfgEx "/480p/movie.mp4" envGen).any isEncoderStartEff = true ∧
    killThenWait (traceOf cfgEx "/480p/movie.mp4" envGen) = true :=
  ⟨by decide,
   C9_encoder_killed_and_reaped_on_every_exit cfgEx "/480p/movie.mp4" envGen (by decide)⟩

/-- C10.  For every request with a matched route, a configured width, a safe
filename and a source file that opens, the handler performs `MkdirAll` on
`OutputDir/<width>`, and no stat (the cache lookup) occurs anywhere in the
trace before that directory creation; moreover if the directory creation
fails the response is 500 — for every environment, including those where a
Ready artifact is present at the canonical path. -/
theorem C10_mkdir_precedes_cache_lookup (c : JSONConfig) (p : String) (env : Env)
    (ws fn : String) (w : Int)
    (hp : parseRoute p = some (ws, fn)) (ha : goAtoi ws = some w)
    (hw : c.Widths.contains w = true)
    (h1 : goContains (cleanPath fn) "../" = false) (h2 : isAbs (cleanPath fn) = false)
    (hopen : env.sourceOpen = OpenResult.ok) :
    Eff.mkdirAll (joinPath c.OutputDir (goItoa w)) ∈ traceOf c p env ∧
    mkdirBeforeStat (traceOf c p env) = true ∧
    (env.mkdirOk = false → (respOf c p env).status = some 500) := by
  have hw2 : w ∈ c.Widths := by simpa using hw
  cases hmk : env.mkdirOk with
  | false =>
    simp [respOf, traceOf, handleTranscodeRequest, hp, ha, hw2, h1, h2, hopen, hmk,
      mkdirBeforeStat, httpError, rwWrite, writeHeader, setCT]
  | true =>
    cases hstat : env.canonicalStat with
    | present =>
      simp [respOf, traceOf, handleTranscodeRequest, hp, ha, hw2, h1, h2, hopen, hmk, hstat,
        mkdirBeforeStat]
    | statErr =>
      simp [respOf, traceOf, handleTranscodeRequest, hp, ha, hw2, h1, h2, hopen, hmk, hstat,
        mkdirBeforeStat]
    | absent =>
      cases hfl : env.flusherOk with
      | false =>
        simp [respOf, traceOf, handleTranscodeRequest, hp, ha, hw2, h1, h2, hopen, hmk,
          hstat, hfl, mkdirBeforeStat]
      | true =>
        cases hsp : env.spawnOk with
        | false =>
          simp [respOf, traceOf, handleTranscodeRequest, hp, ha, hw2, h1, h2, hopen, hmk,
            hstat, hfl, hsp, mkdirBeforeStat]
        | true =>
          simp [respOf, traceOf, handleTranscodeRequest, hp, ha, hw2, h1, h2, hopen, hmk,
            hstat, hfl, hsp, mkdirBeforeStat]

/-- Witness for C10: the environment whose directory creation fails while a
Ready artifact sits at the canonical path — the response is still 500. -/
theorem C10_mkdir_precedes_cache_lookup_witness :
    parseRoute "/480p/movie.mp4" = some ("480", "movie.mp4") ∧
    goAtoi "480" = some 480 ∧
    cfgEx.Widths.contains 480 = true ∧
    goContains (cleanPath "movie.mp4") "../" = false ∧
    isAbs (cleanPath "movie.mp4") = false ∧
    envMkdirFail.sourceOpen = OpenResult.ok ∧
    (Eff.mkdirAll (joinPath cfgEx.OutputDir (goItoa 480)) ∈
       traceOf cfgEx "/480p/movie.mp4" envMkdirFail ∧
     mkdirBeforeStat (traceOf cfgEx "/480p/movie.mp4" envMkdirFail) = true ∧
     (envMkdirFail.mkdirOk = false →
       (respOf cfgEx "/480p/movie.mp4" envMkdirFail).status = some 500)) :=
  ⟨by decide, by decide, by decide, by decide, by decide, by decide,
   C10_mkdir_precedes_cache_lookup cfgEx "/480p/movie.mp4" envMkdirFail "480" "movie.mp4" 480
     (by decide) (by decide) (by decide) (by decide) (by decide) (by decide)⟩

end VideoStreamer
